import Mathlib

/-!
Verification development for the Alza multi-account price-comparison scraper.

The definitions below are a shallow embedding of the scraper module
(src/scraper.ts): the pure string-processing functions (parseCzechNumber,
formatCzechPrice, parseProductName and its local clean helper) are translated
directly; the stateful session registry (the module-level sessions Map) is
embedded as explicit state passing over an association list; browser effects
(navigation, form filling, waits) are abstracted into outcome parameters so
that every store transition of the source is represented exactly.
JavaScript numbers are modelled as rationals, timestamps as naturals (ms).
-/

/-! ### Character helpers (JS regex character classes and case folding) -/

/-- The JS regex class \s (whitespace), by code point. -/
def isJsSpace (c : Char) : Bool :=
  let n := c.toNat
  n = 9 || n = 10 || n = 11 || n = 12 || n = 13 || n = 32 || n = 0xA0 || n = 0x1680 ||
  (0x2000 ≤ n && n ≤ 0x200A) || n = 0x2028 || n = 0x2029 || n = 0x202F || n = 0x205F ||
  n = 0x3000 || n = 0xFEFF

/-- The JS regex class \d, i.e. the ASCII digits 0-9. -/
def isDigitCh (c : Char) : Bool :=
  48 ≤ c.toNat && c.toNat ≤ 57

/-- The JS regex class \w, i.e. ASCII letters, digits and underscore. -/
def isWordChar (c : Char) : Bool :=
  let n := c.toNat
  (48 ≤ n && n ≤ 57) || (65 ≤ n && n ≤ 90) || (97 ≤ n && n ≤ 122) || c = '_'

/-- Case canonicalisation used by the /i regex flag for the alphabet appearing
in the source patterns (ASCII letters plus the Czech letter č). -/
def ciUp (c : Char) : Char :=
  if c = 'č' then 'Č' else c.toUpper

/-- Case-insensitive character comparison (regex /i flag). -/
def ciEq (a b : Char) : Bool :=
  ciUp a = ciUp b

/-- Match a literal pattern case-insensitively at the head of a list,
returning the remainder on success. -/
def ciMatch : List Char → List Char → Option (List Char)
  | [], l => some l
  | _ :: _, [] => none
  | p :: ps, c :: cs => if ciEq c p then ciMatch ps cs else none

/-- The digit character for a value below ten. -/
def digitChar (d : Nat) : Char := Char.ofNat (48 + d)

/-- Value of a big-endian list of ASCII digit characters. -/
def digitsVal (ds : List Char) : Nat :=
  ds.foldl (fun a c => 10 * a + (c.toNat - 48)) 0

/-! ### parseCzechNumber (src/scraper.ts)

Source:
  function parseCzechNumber(text) \x7b
    if (!text) return null;
    const cleaned = text
      .replace(/Kč|CZK|&nbsp;/gi, "")
      .replace(/\s/g, "")
      .replace(/,/g, ".")
      .replace(/[-–]$/, "")
      .trim();
    if (!cleaned) return null;
    const num = parseFloat(cleaned);
    return !isNaN(num) && num > 0 ? num : null;
  \x7d
-/

/-- Worker for the first regex replace, structurally recursive on a fuel
argument so that it stays kernel-computable; the fuel passed at each step is
exactly the length of the remaining input. -/
def stripCurrencyGo : Nat → List Char → List Char
  | 0, l => l
  | _ + 1, [] => []
  | fuel + 1, c :: cs =>
    if ciEq c 'K' then
      match cs with
      | c2 :: rest =>
        if ciEq c2 'č' then stripCurrencyGo fuel rest else c :: stripCurrencyGo fuel cs
      | [] => [c]
    else if ciEq c 'C' then
      match cs with
      | c2 :: c3 :: rest =>
        if ciEq c2 'Z' ∧ ciEq c3 'K' then stripCurrencyGo fuel rest
        else c :: stripCurrencyGo fuel cs
      | _ => c :: stripCurrencyGo fuel cs
    else if c = '&' then
      match cs with
      | c2 :: c3 :: c4 :: c5 :: c6 :: rest =>
        if ciEq c2 'n' ∧ ciEq c3 'b' ∧ ciEq c4 's' ∧ ciEq c5 'p' ∧ c6 = ';' then
          stripCurrencyGo fuel rest
        else c :: stripCurrencyGo fuel cs
      | _ => c :: stripCurrencyGo fuel cs
    else c :: stripCurrencyGo fuel cs

/-- Global case-insensitive removal of the alternatives Kč, CZK and the
literal six characters of the &nbsp entity (the first regex replace). -/
def stripCurrencyAux (l : List Char) : List Char :=
  stripCurrencyGo l.length l

/-- The second replace: remove every \s character. -/
def removeWs (l : List Char) : List Char :=
  l.filter (fun c => !(isJsSpace c))

/-- The third replace: every comma becomes a decimal point. -/
def commaToDot (l : List Char) : List Char :=
  l.map (fun c => if c = ',' then '.' else c)

/-- The fourth replace: strip one trailing hyphen or en dash. -/
def stripTrailingDash (l : List Char) : List Char :=
  match l.getLast? with
  | some c => if c = '-' ∨ c = '–' then l.dropLast else l
  | none => l

/-- String.prototype.trim: drop \s from both ends. -/
def jsTrim (l : List Char) : List Char :=
  ((l.dropWhile isJsSpace).reverse.dropWhile isJsSpace).reverse

/-- The whole cleaning chain of parseCzechNumber, in source order. -/
def cleanPipeline (l : List Char) : List Char :=
  jsTrim (stripTrailingDash (commaToDot (removeWs (stripCurrencyAux l))))

/-- parseFloat phase 1: skip leading whitespace. -/
def pfStart (l : List Char) : List Char :=
  l.dropWhile isJsSpace

/-- parseFloat phase 2: optional sign, returning the sign factor and the
remaining input. -/
def pfSign (l1 : List Char) : ℚ × List Char :=
  if l1.head? = some '-' then (-1, l1.tail)
  else if l1.head? = some '+' then (1, l1.tail) else (1, l1)

/-- parseFloat phase 3: the integer-digit run and the remaining input. -/
def pfIntPart (l2 : List Char) : List Char × List Char :=
  (l2.takeWhile isDigitCh, l2.drop (l2.takeWhile isDigitCh).length)

/-- parseFloat phase 4: when a decimal point follows, the fraction-digit run
after it and the remaining input. -/
def pfFracPart (l3 : List Char) : List Char × List Char :=
  if l3.head? = some '.' then
    (l3.tail.takeWhile isDigitCh, l3.tail.drop (l3.tail.takeWhile isDigitCh).length)
  else ([], l3)

/-- parseFloat phase 5: an optional exponent (consumed only when it carries
at least one digit). -/
def pfExp (l4 : List Char) : ℤ :=
  if l4.head? = some 'e' ∨ l4.head? = some 'E' then
    let r := l4.tail
    let esgn : ℤ := if r.head? = some '-' then -1 else 1
    let r2 := if r.head? = some '-' ∨ r.head? = some '+' then r.tail else r
    let eDs := r2.takeWhile isDigitCh
    if eDs.isEmpty then 0 else esgn * (digitsVal eDs : ℤ)
  else 0

/-- Model of the JS built-in parseFloat on exact rationals: skip leading
whitespace, optional sign, longest decimal-literal prefix (integer digits,
optional fraction, optional exponent); none when no digit was read (NaN).
Infinity literals are outside the rational model and not recognised. -/
def parseFloatQ (l : List Char) : Option ℚ :=
  let s := pfSign (pfStart l)
  let ip := pfIntPart s.2
  let fp := pfFracPart ip.2
  if ip.1.isEmpty ∧ fp.1.isEmpty then none
  else
    some (s.1 * ((digitsVal ip.1 : ℚ) + (digitsVal fp.1 : ℚ) / 10 ^ fp.1.length)
      * (10 : ℚ) ^ pfExp fp.2)

/-- parseCzechNumber from src/scraper.ts (value in exact rationals). -/
def parseCzechNumber (text : String) : Option ℚ :=
  if text.toList.isEmpty then none
  else
    let cleaned := cleanPipeline text.toList
    if cleaned.isEmpty then none
    else
      match parseFloatQ cleaned with
      | none => none
      | some q => if 0 < q then some q else none

/-! ### formatCzechPrice (src/scraper.ts)

Source:
  function formatCzechPrice(price) \x7b
    const formatted = price.toLocaleString("cs-CZ",
      \x7b minimumFractionDigits: 0, maximumFractionDigits: 2 \x7d);
    return formatted + " Kč";
  \x7d
toLocaleString for cs-CZ groups the integer digits in threes with U+00A0,
uses the decimal comma, rounds half away from zero to at most two fraction
digits and omits trailing fraction zeros (minimum zero digits). -/

/-- No-break space, the cs-CZ thousands separator. -/
def nbsp : Char := Char.ofNat 0xA0

/-- Decimal digit characters of a natural number, big-endian. -/
def natChars (n : Nat) : List Char :=
  if n = 0 then ['0'] else ((Nat.digits 10 n).reverse.map digitChar)

/-- Insert the group separator after every three characters of a reversed
digit list. -/
def group3Rev : List Char → List Char
  | [] => []
  | [a] => [a]
  | [a, b] => [a, b]
  | [a, b, c] => [a, b, c]
  | a :: b :: c :: d :: rest => a :: b :: c :: nbsp :: group3Rev (d :: rest)

/-- Group a big-endian digit list in threes from the right with U+00A0. -/
def group3 (ds : List Char) : List Char :=
  (group3Rev ds.reverse).reverse

/-- formatCzechPrice from src/scraper.ts, on exact rationals. -/
def formatCzechPrice (p : ℚ) : String :=
  let k : Nat := (Int.floor (|p| * 100 + 1 / 2)).toNat
  let n := k / 100
  let f := k % 100
  let intPart := group3 (natChars n)
  let fracPart : List Char :=
    if f = 0 then []
    else if f % 10 = 0 then [',', digitChar (f / 10)]
    else [',', digitChar (f / 10), digitChar (f % 10)]
  String.mk ((if p < 0 then ['-'] else []) ++ intPart ++ fracPart ++ [' ', 'K', 'č'])

/-! ### parseProductName (src/scraper.ts)

Source:
  const clean = (name) => name
    .replace(/\s*\|\s*Alza\.\w+$/i, "")
    .replace(/\s+za\s+[\d\s ]+K[čc]/i, "")
    .replace(/\s+-\s+[^-]+$/, "")
    .trim();
  og:title content (trimmed, if nonempty) -> clean; else title text (trimmed,
  if nonempty) -> clean; else first h1 text, trimmed only; else
  "Unknown Product".
The DOM queries are abstracted into a record holding the og:title content
attribute, the title element text and the first h1 element text, each when
the corresponding node (and attribute) exists. -/

/-- Does the whole list match the end-anchored pattern of the first clean
replace (optional whitespace, a pipe, optional whitespace, the letters Alza
case-insensitively, a dot, then one or more word characters to the end)? -/
def alzaSuffixMatches (l : List Char) : Bool :=
  let l1 := l.dropWhile isJsSpace
  match l1 with
  | '|' :: r =>
    let r1 := r.dropWhile isJsSpace
    match ciMatch ['A', 'l', 'z', 'a', '.'] r1 with
    | some rest => !rest.isEmpty && rest.all isWordChar
    | none => false
  | _ => false

/-- Remove the leftmost end-anchored site-name suffix (first clean replace):
cut at the first position from which the suffix pattern matches to the end. -/
def stripAlzaSuffix : List Char → List Char
  | [] => []
  | c :: cs => if alzaSuffixMatches (c :: cs) then [] else c :: stripAlzaSuffix cs

/-- Length of a match of the second clean replace pattern starting exactly at
the head: one or more whitespace, za case-insensitively, then a run of at
least two characters from the digit-or-whitespace class whose first character
is whitespace (the backtracking split of the two adjacent quantifiers), then
K and a c or č, case-insensitively. -/
def zaPriceMatchLen (l : List Char) : Option Nat :=
  match l with
  | c :: _ =>
    if isJsSpace c then
      let ws1 := l.takeWhile isJsSpace
      match ciMatch ['z', 'a'] (l.drop ws1.length) with
      | some l2 =>
        let comb := l2.takeWhile (fun c => isDigitCh c || isJsSpace c)
        match comb with
        | c2 :: _ :: _ =>
          if isJsSpace c2 then
            match l2.drop comb.length with
            | k :: c3 :: _ =>
              if ciEq k 'K' ∧ (ciEq c3 'č' ∨ ciEq c3 'c') then
                some (ws1.length + 2 + comb.length + 2)
              else none
            | _ => none
          else none
        | _ => none
      | none => none
    else none
  | [] => none

/-- Remove the first (leftmost) occurrence of the za-price pattern (second
clean replace; the regex has no global flag). -/
def stripZaPrice : List Char → List Char
  | [] => []
  | c :: cs =>
    match zaPriceMatchLen (c :: cs) with
    | some len => (c :: cs).drop len
    | none => c :: stripZaPrice cs

/-- Does the whole list match the end-anchored pattern of the third clean
replace (whitespace, a hyphen, then whitespace and at least one further
character, none of the characters after the hyphen being a hyphen, to the
end)? The two quantifiers after the hyphen share the whitespace run, so the
match succeeds when the run has length at least two even with nothing after
it. -/
def dashSuffixMatches (l : List Char) : Bool :=
  match l with
  | c :: _ =>
    if isJsSpace c then
      let ws1 := l.takeWhile isJsSpace
      match l.drop ws1.length with
      | '-' :: r =>
        let ws2 := r.takeWhile isJsSpace
        let rest := r.drop ws2.length
        !ws2.isEmpty && rest.all (fun c => !(c = '-')) && (!rest.isEmpty || 2 ≤ ws2.length)
      | _ => false
    else false
  | [] => false

/-- Remove the leftmost end-anchored dash-delimited suffix (third clean
replace). -/
def stripDashSuffix : List Char → List Char
  | [] => []
  | c :: cs => if dashSuffixMatches (c :: cs) then [] else c :: stripDashSuffix cs

/-- The local clean helper of parseProductName: the three replaces in source
order, then trim. -/
def cleanName (l : List Char) : List Char :=
  jsTrim (stripDashSuffix (stripZaPrice (stripAlzaSuffix l)))

/-- The document fields parseProductName queries: the content attribute of
the og:title meta tag, the text of the title element and the text of the
first h1 element, each present exactly when the node (and attribute) is. -/
structure Doc where
  ogTitle : Option String
  title : Option String
  h1 : Option String

/-- Fallback of parseProductName once meta and title gave nothing: the first
h1 element's text, trimmed only (the source does not apply clean here), else
the placeholder. -/
def parseProductNameH1 (d : Doc) : String :=
  match d.h1 with
  | some t => String.mk (jsTrim t.toList)
  | none => "Unknown Product"

/-- Fallback of parseProductName once the meta tag gave nothing: the title
element's text, trimmed; when nonempty it is cleaned. -/
def parseProductNameTitle (d : Doc) : String :=
  match d.title with
  | some t =>
    let tt := jsTrim t.toList
    if tt.isEmpty then parseProductNameH1 d else String.mk (cleanName tt)
  | none => parseProductNameH1 d

/-- parseProductName from src/scraper.ts. -/
def parseProductName (d : Doc) : String :=
  match d.ogTitle with
  | some c =>
    let t := jsTrim c.toList
    if t.isEmpty then parseProductNameTitle d else String.mk (cleanName t)
  | none => parseProductNameTitle d

/-! ### Session registry and login flow (src/scraper.ts)

The module state is the sessions Map keyed by account email. Browser effects
are abstracted: the outcome of the navigation/wait sequence of a call is an
explicit parameter, and each outcome constructor corresponds to exactly one
return path of the source, with the store writes that path performs. A thrown
JS error is modelled as the outcome constructor of the catch branch, never as
a Lean exception, because the source catches everything. -/

/-- SessionStatus from src/types.ts. -/
inductive SessionStatus
  | logged_in
  | verification_required
  | failed
  | not_started
deriving DecidableEq, Repr

/-- AlzaAccount from src/types.ts. -/
structure AlzaAccount where
  email : String
  password : String
  label : String
deriving DecidableEq, Repr

/-- AccountSession from src/scraper.ts; the browsing context and the retained
verification page are handles, modelled as numeric identifiers. -/
structure AccountSession where
  contextId : Nat
  status : SessionStatus
  phone : Option String := none
  error : Option String := none
  verifyPage : Option Nat := none
  expires : Nat
deriving DecidableEq, Repr

/-- AccountSessionStatus from src/types.ts. -/
structure AccountSessionStatus where
  label : String
  status : SessionStatus
  phone : Option String := none
  error : Option String := none
deriving DecidableEq, Repr

/-- The sessions Map, as an insertion-ordered association list with unique
keys (the JS Map iteration/lookup semantics for the operations used). -/
abbrev Store := List (String × AccountSession)

/-- Map.get. -/
def storeLookup : Store → String → Option AccountSession
  | [], _ => none
  | (k, v) :: rest, key => if k = key then some v else storeLookup rest key

/-- Map.set: overwrite in place when the key exists, else append. -/
def storeSet : Store → String → AccountSession → Store
  | [], k, v => [(k, v)]
  | (k', v') :: rest, k, v =>
    if k' = k then (k, v) :: rest else (k', v') :: storeSet rest k v

/-- Map.delete. -/
def storeDelete (st : Store) (key : String) : Store :=
  st.filter (fun p => decide (p.1 ≠ key))

/-- SESSION_TTL from src/scraper.ts: ten minutes in milliseconds. -/
def SESSION_TTL : Nat := 600000

/-- The cached-session short-circuit test at the top of initLogin:
a stored session that is logged_in and not yet expired. -/
def cachedValid (st : Store) (a : AlzaAccount) (now : Nat) : Bool :=
  match storeLookup st a.email with
  | some s => s.status = SessionStatus.logged_in ∧ now < s.expires
  | none => false

/-- The classification of one initLogin attempt after the form was submitted,
one constructor per return path of the source body: redirect to the
verification path (immediately or after the delayed wait, with the scraped
masked phone hint), redirect to the main site (immediately or delayed), the
unexpected-state fallthrough (with the page title and URL used in the
diagnostic), or a thrown error caught by the outer catch. -/
inductive LoginOutcome
  | verifyImmediate (phone : Option String)
  | successImmediate
  | successDelayed
  | verifyDelayed (phone : Option String)
  | unexpected (title url : String)
  | exception (msg : String)

/-- The try-block of initLogin from the classification on: each path builds
its status and performs exactly the store writes of the source. ctx and pg
are the handles of the context and page the attempt used. -/
def initLoginBody (st : Store) (a : AlzaAccount) (ctx pg : Nat) (oc : LoginOutcome)
    (now : Nat) : AccountSessionStatus × Store :=
  match oc with
  | .verifyImmediate ph =>
    ({ label := a.label, status := .verification_required, phone := ph },
     storeSet st a.email
       { contextId := ctx, status := .verification_required, phone := ph,
         verifyPage := some pg, expires := now + SESSION_TTL })
  | .successImmediate =>
    ({ label := a.label, status := .logged_in },
     storeSet st a.email
       { contextId := ctx, status := .logged_in, expires := now + SESSION_TTL })
  | .successDelayed =>
    ({ label := a.label, status := .logged_in },
     storeSet st a.email
       { contextId := ctx, status := .logged_in, expires := now + SESSION_TTL })
  | .verifyDelayed ph =>
    ({ label := a.label, status := .verification_required, phone := ph },
     storeSet st a.email
       { contextId := ctx, status := .verification_required, phone := ph,
         verifyPage := some pg, expires := now + SESSION_TTL })
  | .unexpected title url =>
    ({ label := a.label, status := .failed,
       error := some ("Unexpected state: " ++ title ++ " (" ++ url ++ ")") }, st)
  | .exception msg =>
    ({ label := a.label, status := .failed, error := some msg }, st)

/-- initLogin from src/scraper.ts: short-circuit on a valid cached session,
otherwise discard any stale session record and run the login attempt. -/
def initLogin (st : Store) (a : AlzaAccount) (ctx pg : Nat) (oc : LoginOutcome)
    (now : Nat) : AccountSessionStatus × Store :=
  if cachedValid st a now then ({ label := a.label, status := .logged_in }, st)
  else
    let st1 := if (storeLookup st a.email).isSome then storeDelete st a.email else st
    initLoginBody st1 a ctx pg oc now

/-- getSessionStatus from src/scraper.ts (a pure read). -/
def getSessionStatus (st : Store) (a : AlzaAccount) (now : Nat) : AccountSessionStatus :=
  match storeLookup st a.email with
  | none => { label := a.label, status := .not_started }
  | some s =>
    if s.status = SessionStatus.logged_in ∧ s.expires ≤ now then
      { label := a.label, status := .not_started }
    else
      { label := a.label, status := s.status, phone := s.phone, error := s.error }

/-- getSessionStatus together with the store it leaves behind: the source
body contains no write to the sessions Map, so the store passes through. -/
def getSessionStatusOp (st : Store) (a : AlzaAccount) (now : Nat) :
    AccountSessionStatus × Store :=
  (getSessionStatus st a now, st)

/-- The classification of one submitVerificationCode attempt once the
precondition holds, one constructor per path of the source: the awaited
redirect to the main site happened; the wait threw while the page is still on
the verification path; or it threw with the page elsewhere. -/
inductive VerifyOutcome
  | success
  | failOnVerifyPath (msg : String)
  | failOffVerifyPath (msg : String)

/-- submitVerificationCode from src/scraper.ts. The source mutates the
session record in place; here the updated record is written back to the
store. -/
def submitVerificationCode (st : Store) (a : AlzaAccount) (oc : VerifyOutcome)
    (now : Nat) : AccountSessionStatus × Store :=
  match storeLookup st a.email with
  | none =>
    ({ label := a.label, status := .failed,
       error := some "No pending verification for this account" }, st)
  | some s =>
    if s.status ≠ SessionStatus.verification_required ∨ s.verifyPage = none then
      ({ label := a.label, status := .failed,
         error := some "No pending verification for this account" }, st)
    else
      match oc with
      | .success =>
        ({ label := a.label, status := .logged_in },
         storeSet st a.email
           { s with verifyPage := none, status := .logged_in,
                    expires := now + SESSION_TTL })
      | .failOnVerifyPath _ =>
        ({ label := a.label, status := .verification_required, phone := s.phone,
           error := some "Invalid code, try again" }, st)
      | .failOffVerifyPath msg =>
        ({ label := a.label, status := .failed, error := some msg },
         storeSet st a.email
           { s with verifyPage := none, status := .failed, error := some msg })

/-- The scrape precondition gate of scrapePrice from src/scraper.ts: the
checks performed before any browser interaction, each error constructor
standing for the throw of the corresponding source line, paired with the
store the call leaves behind. -/
inductive ScrapeGate
  | proceed (ctx : Nat)
  | errNoSession (msg : String)
  | errExpired (msg : String)
deriving DecidableEq, Repr

/-- The two guard checks at the top of scrapePrice; only when both pass does
the source open a page in the session's context. -/
def scrapePriceGate (st : Store) (a : AlzaAccount) (now : Nat) : ScrapeGate × Store :=
  match storeLookup st a.email with
  | none =>
    (.errNoSession ("No active session for " ++ a.label ++ ". Call /auth/init first."), st)
  | some s =>
    if s.status ≠ SessionStatus.logged_in then
      (.errNoSession ("No active session for " ++ a.label ++ ". Call /auth/init first."), st)
    else if s.expires ≤ now then
      (.errExpired ("Session expired for " ++ a.label ++ ". Call /auth/init to re-login."),
       storeDelete st a.email)
    else (.proceed s.contextId, st)

/-! ### Browsing-context selection in initLogin (src/scraper.ts)

Source (the region between obtaining the browser and filling the form):
  const defaultCtx = b.contexts()[0];
  if (defaultCtx && !sessions.size) \x7b
    context = defaultCtx;
    for (const p of context.pages())
      if (p.url().includes("identity.alza.cz")) \x7b page = p; break; \x7d
  \x7d
  if (!page) \x7b
    context = defaultCtx || await b.newContext(...);
    page = await context.newPage();
    await page.goto("https://identity.alza.cz/Account/Login", ...);
    await waitForCloudflare(page);
  \x7d else \x7b context = defaultCtx; \x7d
-/

/-- Which browsing context an initLogin attempt ends up using. -/
inductive ContextChoice
  | useDefault (id : Nat)
  | fresh
deriving DecidableEq, Repr

/-- The context/page selection of initLogin. Inputs: the first context of the
connected browser when one exists, whether the sessions Map is empty, and the
page of the default context whose URL contains identity.alza.cz when there is
one. Output: the chosen context and whether a new page was opened and
navigated to the login surface (false means the launch page was reused). -/
def pickContext (defaultCtx : Option Nat) (sessionsEmpty : Bool)
    (identityPage : Option Nat) : ContextChoice × Bool :=
  match defaultCtx with
  | some d =>
    if sessionsEmpty then
      match identityPage with
      | some _ => (.useDefault d, false)
      | none => (.useDefault d, true)
    else (.useDefault d, true)
  | none => (.fresh, true)

/-! ### ensureBrowser (src/scraper.ts)

Source:
  export async function ensureBrowser(config) \x7b
    if (browser?.isConnected()) return browser;
    if (browserInitPromise) return browserInitPromise;
    browserInitPromise = initBrowser(config);
    try \x7b return await browserInitPromise; \x7d
    finally \x7b browserInitPromise = null; \x7d
  \x7d
The event loop is single-threaded: each call runs this body synchronously up
to its first await, so N concurrent calls execute their bodies in sequence
before any creation resolves. The state below is the module state; launches
counts initBrowser invocations (each spawns one process and attaches one CDP
connection). -/

/-- The module-level mutable state around ensureBrowser. -/
structure BrowserModuleState where
  connectedHandle : Option Nat
  browserInitPromiseId : Option Nat
  launches : Nat
  nextId : Nat
deriving DecidableEq, Repr

/-- What one synchronous run of the ensureBrowser body produces: an already
connected handle, or the promise the caller will await. -/
inductive EnsureOutcome
  | existing (h : Nat)
  | awaitPromise (p : Nat)
deriving DecidableEq, Repr

/-- One synchronous execution of the ensureBrowser body. -/
def ensureBrowserSync (s : BrowserModuleState) : EnsureOutcome × BrowserModuleState :=
  match s.connectedHandle with
  | some h => (.existing h, s)
  | none =>
    match s.browserInitPromiseId with
    | some p => (.awaitPromise p, s)
    | none =>
      (.awaitPromise s.nextId,
       { s with browserInitPromiseId := some s.nextId,
                launches := s.launches + 1, nextId := s.nextId + 1 })

/-- N concurrent ensureBrowser calls: the event loop runs their synchronous
bodies one after the other (none of the creations they may start resolves in
between, since resolution requires further awaits). -/
def ensureMany : Nat → BrowserModuleState → List EnsureOutcome × BrowserModuleState
  | 0, s => ([], s)
  | n + 1, s =>
    let r := ensureBrowserSync s
    let rs := ensureMany n r.2
    (r.1 :: rs.1, rs.2)

/-! ### Store lemmas -/

theorem storeLookup_delete_self (st : Store) (k : String) :
    storeLookup (storeDelete st k) k = none := by
  induction st with
  | nil => rfl
  | cons p rest ih =>
    obtain ⟨k', v'⟩ := p
    by_cases h : k' = k
    · simp [storeDelete, List.filter_cons, h] at ih ⊢
      exact ih
    · simpa [storeDelete, List.filter_cons, h, storeLookup] using ih

theorem storeLookup_set_self (st : Store) (k : String) (v : AccountSession) :
    storeLookup (storeSet st k v) k = some v := by
  induction st with
  | nil => simp [storeSet, storeLookup]
  | cons p rest ih =>
    obtain ⟨k', v'⟩ := p
    by_cases h : k' = k
    · simp [storeSet, h, storeLookup]
    · simp [storeSet, h, storeLookup, ih]

/-- The store left by the stale-session cleanup step of initLogin has no
record for the account. -/
theorem storeLookup_cleanup (st : Store) (k : String) :
    storeLookup (if (storeLookup st k).isSome then storeDelete st k else st) k = none := by
  cases h : storeLookup st k with
  | none => simp [h]
  | some s => simp [h, storeLookup_delete_self]

/-! ### Claim C1 -/

/-- Claim C1 counterexample: a stored verification_required session whose
expiry (5) is at or before the current time (10) is reported as
verification_required by getSessionStatus, not as not_started as the claim
requires for every stored state; the source applies the expiry check only to
logged_in records. -/
theorem c1_counterexample :
    storeLookup
        [("u@example.com",
          { contextId := 0, status := .verification_required, phone := some "*** *** 123",
            verifyPage := some 1, expires := 5 })]
        "u@example.com"
      = some { contextId := 0, status := .verification_required, phone := some "*** *** 123",
               verifyPage := some 1, expires := 5 }
    ∧ (5 : Nat) ≤ 10
    ∧ (getSessionStatus
        [("u@example.com",
          { contextId := 0, status := .verification_required, phone := some "*** *** 123",
            verifyPage := some 1, expires := 5 })]
        { email := "u@example.com", password := "p", label := "A" } 10).status
      = SessionStatus.verification_required
    ∧ SessionStatus.verification_required ≠ SessionStatus.not_started := by
  refine ⟨rfl, by decide, ?_, by decide⟩
  rfl

/-- Claim C1 (amended): getSessionStatus treats only a stored logged_in
session with expiry at or before now as not_started; a stored session in any
other state is reported with its stored state (and phone and error) whatever
its expiry. Either way the call does not write the session store. -/
theorem c1_amended (st : Store) (a : AlzaAccount) (now : Nat) (s : AccountSession)
    (h : storeLookup st a.email = some s) :
    (s.status = SessionStatus.logged_in → s.expires ≤ now →
      getSessionStatusOp st a now = ({ label := a.label, status := .not_started }, st))
    ∧ (s.status ≠ SessionStatus.logged_in →
      getSessionStatusOp st a now
        = ({ label := a.label, status := s.status, phone := s.phone, error := s.error }, st)) := by
  constructor
  · intro h1 h2
    simp [getSessionStatusOp, getSessionStatus, h, h1, h2]
  · intro h1
    simp [getSessionStatusOp, getSessionStatus, h, h1]

/-- Witness for c1_amended at a concrete expired logged_in session. -/
theorem c1_amended_witness :
    getSessionStatusOp [("u@x", { contextId := 0, status := .logged_in, expires := 5 })]
        { email := "u@x", password := "p", label := "A" } 9
      = ({ label := "A", status := .not_started },
         [("u@x", { contextId := 0, status := .logged_in, expires := 5 })]) :=
  (c1_amended [("u@x", { contextId := 0, status := .logged_in, expires := 5 })]
      { email := "u@x", password := "p", label := "A" } 9
      { contextId := 0, status := .logged_in, expires := 5 } rfl).1 rfl (by decide)

/-! ### Claim C2 -/

/-- Claim C2 counterexample: initiate-login with a thrown error returns the
structured failed status with that error, but writes no session record, so
the subsequent get-status reports not_started instead of the failed state
with that error. -/
theorem c2_counterexample :
    (initLogin [] { email := "u@x", password := "p", label := "A" } 0 0
        (.exception "boom") 0).1
      = { label := "A", status := .failed, error := some "boom" }
    ∧ getSessionStatus
        (initLogin [] { email := "u@x", password := "p", label := "A" } 0 0
          (.exception "boom") 0).2
        { email := "u@x", password := "p", label := "A" } 0
      = { label := "A", status := .not_started }
    ∧ ({ label := "A", status := .not_started } : AccountSessionStatus)
      ≠ { label := "A", status := .failed, error := some "boom" } := by
  refine ⟨rfl, rfl, by decide⟩

/-- Claim C2 (amended): failures during initiate-login and
submit-verification-code are returned as structured statuses carrying the
error, never thrown to the caller. However, the initiate-login failure paths
(caught exception or unexpected post-login state) do not write a session
record — any stale record was already discarded — so a subsequent get-status
reports not_started, not the failed state. The error is captured into the
session record only by submit-verification-code's non-recoverable failure
path; its recoverable invalid-code path returns the error without storing
it. -/
theorem c2_amended :
    (∀ (st : Store) (a : AlzaAccount) (ctx pg now : Nat) (msg : String),
      cachedValid st a now = false →
        (initLogin st a ctx pg (.exception msg) now).1
            = { label := a.label, status := .failed, error := some msg }
        ∧ storeLookup (initLogin st a ctx pg (.exception msg) now).2 a.email = none
        ∧ getSessionStatus (initLogin st a ctx pg (.exception msg) now).2 a now
            = { label := a.label, status := .not_started })
    ∧ (∀ (st : Store) (a : AlzaAccount) (ctx pg now : Nat) (title url : String),
      cachedValid st a now = false →
        (initLogin st a ctx pg (.unexpected title url) now).1
            = { label := a.label, status := .failed,
                error := some ("Unexpected state: " ++ title ++ " (" ++ url ++ ")") }
        ∧ storeLookup (initLogin st a ctx pg (.unexpected title url) now).2 a.email = none)
    ∧ (∀ (st : Store) (a : AlzaAccount) (now : Nat) (s : AccountSession) (msg : String),
      storeLookup st a.email = some s → s.status = SessionStatus.verification_required →
      s.verifyPage ≠ none →
        (submitVerificationCode st a (.failOffVerifyPath msg) now).1
            = { label := a.label, status := .failed, error := some msg }
        ∧ storeLookup (submitVerificationCode st a (.failOffVerifyPath msg) now).2 a.email
            = some { s with verifyPage := none, status := .failed, error := some msg })
    ∧ (∀ (st : Store) (a : AlzaAccount) (now : Nat) (s : AccountSession) (msg : String),
      storeLookup st a.email = some s → s.status = SessionStatus.verification_required →
      s.verifyPage ≠ none →
        (submitVerificationCode st a (.failOnVerifyPath msg) now).1
            = { label := a.label, status := .verification_required, phone := s.phone,
                error := some "Invalid code, try again" }
        ∧ (submitVerificationCode st a (.failOnVerifyPath msg) now).2 = st) := by
  refine ⟨?_, ?_, ?_, ?_⟩
  · intro st a ctx pg now msg hcv
    refine ⟨by simp [initLogin, hcv, initLoginBody], ?_, ?_⟩
    · simp [initLogin, hcv, initLoginBody, storeLookup_cleanup]
    · simp [initLogin, hcv, initLoginBody, getSessionStatus, storeLookup_cleanup]
  · intro st a ctx pg now title url hcv
    refine ⟨by simp [initLogin, hcv, initLoginBody], ?_⟩
    simp [initLogin, hcv, initLoginBody, storeLookup_cleanup]
  · intro st a now s msg hl hs hp
    refine ⟨by simp [submitVerificationCode, hl, hs, hp], ?_⟩
    simp [submitVerificationCode, hl, hs, hp, storeLookup_set_self]
  · intro st a now s msg hl hs hp
    exact ⟨by simp [submitVerificationCode, hl, hs, hp],
           by simp [submitVerificationCode, hl, hs, hp]⟩

/-- Witness for c2_amended: a concrete failed login attempt on an account
with a stale failed record, and a concrete non-recoverable verification
failure. -/
theorem c2_amended_witness :
    ((initLogin [("u@x", { contextId := 0, status := .failed, expires := 3 })]
        { email := "u@x", password := "p", label := "A" } 1 2 (.exception "net down") 7).1
      = { label := "A", status := .failed, error := some "net down" }
    ∧ storeLookup
        (initLogin [("u@x", { contextId := 0, status := .failed, expires := 3 })]
          { email := "u@x", password := "p", label := "A" } 1 2 (.exception "net down") 7).2
        "u@x" = none
    ∧ getSessionStatus
        (initLogin [("u@x", { contextId := 0, status := .failed, expires := 3 })]
          { email := "u@x", password := "p", label := "A" } 1 2 (.exception "net down") 7).2
        { email := "u@x", password := "p", label := "A" } 7
      = { label := "A", status := .not_started })
    ∧ ((submitVerificationCode
          [("u@x", { contextId := 0, status := .verification_required,
                     verifyPage := some 4, expires := 99 })]
          { email := "u@x", password := "p", label := "A" } (.failOffVerifyPath "timeout") 7).1
        = { label := "A", status := .failed, error := some "timeout" }) := by
  constructor
  · exact c2_amended.1 [("u@x", { contextId := 0, status := .failed, expires := 3 })]
      { email := "u@x", password := "p", label := "A" } 1 2 7 "net down" (by decide)
  · exact (c2_amended.2.2.1
      [("u@x", { contextId := 0, status := .verification_required,
                 verifyPage := some 4, expires := 99 })]
      { email := "u@x", password := "p", label := "A" } 7
      { contextId := 0, status := .verification_required, verifyPage := some 4, expires := 99 }
      "timeout" rfl rfl (by decide)).1

/-! ### Claim C3 -/

/-- Claim C3 evaluated at the failing input: a subsequent account (the
sessions Map is nonempty) while the connected browser exposes its default
context. The source computes context = defaultCtx || await b.newContext(...)
which picks the default context, so the account is logged in inside the
shared default browsing context, not a fresh isolated one as the claim, the
spec and the source's own comment (or create a new context for subsequent
accounts) require; a fresh context is created only when the browser reports
no contexts at all. -/
theorem c3_code_bug :
    pickContext (some 0) false none = (ContextChoice.useDefault 0, true)
    ∧ ContextChoice.useDefault 0 ≠ ContextChoice.fresh
    ∧ pickContext none false none = (ContextChoice.fresh, true) := by
  refine ⟨rfl, by decide, rfl⟩

/-! ### Claim C4 -/

/-- Claim C4: the scrape gate. With no session or a session not logged_in,
scrapePrice throws the no-active-session error naming the account label and
leaves the store (and browser) untouched: the gate is evaluated before any
page is opened. With a logged_in session whose expiry is at or before now it
deletes the record and throws the session-expired error, and the next status
read reports not_started. -/
theorem c4_scrape_gate (st : Store) (a : AlzaAccount) (now : Nat) :
    (storeLookup st a.email = none →
      scrapePriceGate st a now
        = (.errNoSession ("No active session for " ++ a.label ++ ". Call /auth/init first."),
           st))
    ∧ (∀ s, storeLookup st a.email = some s → s.status ≠ SessionStatus.logged_in →
      scrapePriceGate st a now
        = (.errNoSession ("No active session for " ++ a.label ++ ". Call /auth/init first."),
           st))
    ∧ (∀ s, storeLookup st a.email = some s → s.status = SessionStatus.logged_in →
      s.expires ≤ now →
      scrapePriceGate st a now
        = (.errExpired ("Session expired for " ++ a.label ++ ". Call /auth/init to re-login."),
           storeDelete st a.email)
      ∧ getSessionStatus (storeDelete st a.email) a now
          = { label := a.label, status := .not_started }) := by
  refine ⟨?_, ?_, ?_⟩
  · intro h
    simp [scrapePriceGate, h]
  · intro s hl hs
    simp [scrapePriceGate, hl, hs]
  · intro s hl hs he
    refine ⟨by simp [scrapePriceGate, hl, hs, he], ?_⟩
    simp [getSessionStatus, storeLookup_delete_self]

/-- Witness for c4_scrape_gate: a logged_in session expired at time 10. -/
theorem c4_scrape_gate_witness :
    scrapePriceGate [("u@x", { contextId := 3, status := .logged_in, expires := 10 })]
        { email := "u@x", password := "p", label := "A" } 10
      = (.errExpired "Session expired for A. Call /auth/init to re-login.",
         storeDelete [("u@x", { contextId := 3, status := .logged_in, expires := 10 })] "u@x")
    ∧ getSessionStatus
        (storeDelete [("u@x", { contextId := 3, status := .logged_in, expires := 10 })] "u@x")
        { email := "u@x", password := "p", label := "A" } 10
      = { label := "A", status := .not_started } :=
  (c4_scrape_gate [("u@x", { contextId := 3, status := .logged_in, expires := 10 })]
      { email := "u@x", password := "p", label := "A" } 10).2.2
    { contextId := 3, status := .logged_in, expires := 10 } rfl rfl (by decide)

/-! ### Claim C5 -/

/-- Claim C5: every transition into logged_in stamps the session expiry with
now + 600000 ms: both initiate-login success paths (immediate redirect and
delayed redirect to the main site) and the successful verification-code
submission. -/
theorem c5_ttl_stamp :
    (∀ (st : Store) (a : AlzaAccount) (ctx pg now : Nat) (oc : LoginOutcome),
      cachedValid st a now = false →
      (oc = LoginOutcome.successImmediate ∨ oc = LoginOutcome.successDelayed) →
      storeLookup (initLogin st a ctx pg oc now).2 a.email
        = some { contextId := ctx, status := .logged_in, expires := now + 600000 })
    ∧ (∀ (st : Store) (a : AlzaAccount) (now : Nat) (s : AccountSession),
      storeLookup st a.email = some s → s.status = SessionStatus.verification_required →
      s.verifyPage ≠ none →
      storeLookup (submitVerificationCode st a .success now).2 a.email
        = some { s with verifyPage := none, status := .logged_in,
                        expires := now + 600000 }) := by
  constructor
  · intro st a ctx pg now oc hcv hoc
    rcases hoc with h | h <;>
      simp [h, initLogin, hcv, initLoginBody, SESSION_TTL, storeLookup_set_self]
  · intro st a now s hl hs hp
    simp [submitVerificationCode, hl, hs, hp, SESSION_TTL, storeLookup_set_self]

/-- Witness for c5_ttl_stamp: a fresh login at time 42 stores expiry 600042.
-/
theorem c5_ttl_stamp_witness :
    storeLookup
        (initLogin [] { email := "u@x", password := "p", label := "A" } 1 2
          LoginOutcome.successImmediate 42).2 "u@x"
      = some { contextId := 1, status := .logged_in, expires := 42 + 600000 } :=
  c5_ttl_stamp.1 [] { email := "u@x", password := "p", label := "A" } 1 2 42
    LoginOutcome.successImmediate (by decide) (Or.inl rfl)

/-! ### Claim C6 -/

/-- Claim C6: a verification-code submission that fails its redirect wait
while the page is still on the verification path returns
verification_required with the corrective error, and leaves the store
untouched, so the session record survives in verification_required with its
verification page still retained. -/
theorem c6_invalid_code (st : Store) (a : AlzaAccount) (now : Nat) (s : AccountSession)
    (msg : String) (hl : storeLookup st a.email = some s)
    (hs : s.status = SessionStatus.verification_required) (hp : s.verifyPage ≠ none) :
    submitVerificationCode st a (.failOnVerifyPath msg) now
      = ({ label := a.label, status := .verification_required, phone := s.phone,
           error := some "Invalid code, try again" }, st)
    ∧ storeLookup (submitVerificationCode st a (.failOnVerifyPath msg) now).2 a.email
      = some s
    ∧ s.status = SessionStatus.verification_required ∧ s.verifyPage ≠ none := by
  have hmain : submitVerificationCode st a (.failOnVerifyPath msg) now
      = ({ label := a.label, status := .verification_required, phone := s.phone,
           error := some "Invalid code, try again" }, st) := by
    simp [submitVerificationCode, hl, hs, hp]
  exact ⟨hmain, by rw [hmain]; exact hl, hs, hp⟩

/-- Witness for c6_invalid_code at a concrete pending verification. -/
theorem c6_invalid_code_witness :
    submitVerificationCode
        [("u@x", { contextId := 0, status := .verification_required,
                   phone := some "*** *** 123", verifyPage := some 7, expires := 50 })]
        { email := "u@x", password := "p", label := "A" } (.failOnVerifyPath "Timeout") 10
      = ({ label := "A", status := .verification_required, phone := some "*** *** 123",
           error := some "Invalid code, try again" },
         [("u@x", { contextId := 0, status := .verification_required,
                    phone := some "*** *** 123", verifyPage := some 7, expires := 50 })]) :=
  (c6_invalid_code
      [("u@x", { contextId := 0, status := .verification_required,
                 phone := some "*** *** 123", verifyPage := some 7, expires := 50 })]
      { email := "u@x", password := "p", label := "A" } 10
      { contextId := 0, status := .verification_required, phone := some "*** *** 123",
        verifyPage := some 7, expires := 50 }
      "Timeout" rfl rfl (by decide)).1

/-! ### Claim C9 -/

/-- While a creation is pending (and no connected handle exists), every
further ensureBrowser call returns that same pending promise and changes
nothing. -/
theorem ensureMany_pending (n : Nat) (s : BrowserModuleState) (p : Nat)
    (hc : s.connectedHandle = none) (hp : s.browserInitPromiseId = some p) :
    ensureMany n s = (List.replicate n (EnsureOutcome.awaitPromise p), s) := by
  induction n with
  | zero => simp [ensureMany]
  | succ m ih =>
    have hstep : ensureBrowserSync s = (.awaitPromise p, s) := by
      simp [ensureBrowserSync, hc, hp]
    simp [ensureMany, hstep, ih, List.replicate_succ]

/-- Claim C9: starting with no live handle and no pending creation, N
simultaneous ensureBrowser calls all receive the same single in-flight
creation promise, and exactly one initBrowser invocation (one process launch
with one CDP connection) is started; and once a connected handle exists,
every call returns it unchanged without starting anything. -/
theorem c9_single_flight :
    (∀ (N : Nat) (s : BrowserModuleState), s.connectedHandle = none →
      s.browserInitPromiseId = none → 0 < N →
      (ensureMany N s).1 = List.replicate N (EnsureOutcome.awaitPromise s.nextId)
      ∧ (ensureMany N s).2.launches = s.launches + 1)
    ∧ (∀ (s : BrowserModuleState) (h : Nat), s.connectedHandle = some h →
      ensureBrowserSync s = (.existing h, s) ∧ ensureMany 1 s = ([.existing h], s)) := by
  constructor
  · intro N s hc hp hN
    obtain ⟨m, rfl⟩ : ∃ m, N = m + 1 := ⟨N - 1, (Nat.succ_pred_eq_of_pos hN).symm⟩
    have hstep : ensureBrowserSync s
        = (.awaitPromise s.nextId,
           { s with browserInitPromiseId := some s.nextId,
                    launches := s.launches + 1, nextId := s.nextId + 1 }) := by
      simp [ensureBrowserSync, hc, hp]
    have hrest := ensureMany_pending m
      { s with browserInitPromiseId := some s.nextId,
               launches := s.launches + 1, nextId := s.nextId + 1 } s.nextId (by simp [hc]) rfl
    constructor
    · simp [ensureMany, hstep, hrest, List.replicate_succ]
    · simp [ensureMany, hstep, hrest]
  · intro s h hc
    have hstep : ensureBrowserSync s = (.existing h, s) := by
      simp [ensureBrowserSync, hc]
    exact ⟨hstep, by simp [ensureMany, hstep]⟩

/-- Witness for c9_single_flight: three concurrent first-use calls from the
initial module state collapse onto promise 0 with a single launch, and a
connected state short-circuits. -/
theorem c9_single_flight_witness :
    ((ensureMany 3 { connectedHandle := none, browserInitPromiseId := none,
                     launches := 0, nextId := 0 }).1
      = [EnsureOutcome.awaitPromise 0, EnsureOutcome.awaitPromise 0,
         EnsureOutcome.awaitPromise 0]
    ∧ (ensureMany 3 { connectedHandle := none, browserInitPromiseId := none,
                      launches := 0, nextId := 0 }).2.launches = 1)
    ∧ ensureBrowserSync { connectedHandle := some 5, browserInitPromiseId := none,
                          launches := 1, nextId := 1 }
      = (.existing 5, { connectedHandle := some 5, browserInitPromiseId := none,
                        launches := 1, nextId := 1 }) := by
  constructor
  · have h := c9_single_flight.1 3
      { connectedHandle := none, browserInitPromiseId := none, launches := 0, nextId := 0 }
      rfl rfl (by decide)
    simpa using h
  · exact (c9_single_flight.2
      { connectedHandle := some 5, browserInitPromiseId := none, launches := 1, nextId := 1 }
      5 rfl).1

/-! ### Character and list facts used by the normalization proofs -/

/-- Facts about the character of a digit below ten, bundled. -/
theorem digitChar_facts (d : Nat) (h : d < 10) :
    (digitChar d).toNat = 48 + d
    ∧ isDigitCh (digitChar d) = true
    ∧ isJsSpace (digitChar d) = false
    ∧ ciEq (digitChar d) 'K' = false
    ∧ ciEq (digitChar d) 'C' = false
    ∧ digitChar d ≠ '&'
    ∧ digitChar d ≠ ','
    ∧ digitChar d ≠ '-'
    ∧ digitChar d ≠ '–'
    ∧ digitChar d ≠ '+'
    ∧ digitChar d ≠ '.'
    ∧ digitChar d ≠ 'e'
    ∧ digitChar d ≠ 'E' := by
  interval_cases d <;> exact ⟨by decide, by decide, by decide, by decide, by decide,
    by decide, by decide, by decide, by decide, by decide, by decide, by decide, by decide⟩

/-- Every character satisfying isDigitCh is the digit character of a value
below ten. -/
theorem isDigitCh_char_eq (c : Char) (h : isDigitCh c = true) :
    ∃ d, d < 10 ∧ c = digitChar d := by
  have h1 : 48 ≤ c.toNat ∧ c.toNat ≤ 57 := by simpa [isDigitCh] using h
  refine ⟨c.toNat - 48, by omega, ?_⟩
  unfold digitChar
  have h2 : 48 + (c.toNat - 48) = c.toNat := by omega
  rw [h2]
  exact (Char.ofNat_toNat c).symm

/-- The parseFloat-relevant facts about any digit character. -/
theorem digitCh_facts (c : Char) (h : isDigitCh c = true) :
    isJsSpace c = false ∧ c ≠ '-' ∧ c ≠ '+' ∧ c ≠ '.' ∧ c ≠ 'e' ∧ c ≠ 'E' := by
  obtain ⟨d, hd, rfl⟩ := isDigitCh_char_eq c h
  obtain ⟨-, -, h3, -, -, -, -, h8, -, h10, h11, h12, h13⟩ := digitChar_facts d hd
  exact ⟨h3, h8, h10, h11, h12, h13⟩

/-- takeWhile of a list all of whose elements satisfy the predicate. -/
theorem takeWhile_all {α : Type} (p : α → Bool) :
    ∀ l : List α, (∀ c ∈ l, p c = true) → l.takeWhile p = l := by
  intro l
  induction l with
  | nil => intro _; rfl
  | cons a l ih =>
    intro h
    rw [List.takeWhile_cons_of_pos (h a (by simp))]
    rw [ih (fun c hc => h c (by simp [hc]))]

/-- takeWhile across an append whose left part is all-satisfying. -/
theorem takeWhile_all_append {α : Type} (p : α → Bool) (A B : List α)
    (hA : ∀ c ∈ A, p c = true) :
    (A ++ B).takeWhile p = A ++ B.takeWhile p := by
  induction A with
  | nil => simp
  | cons a A ih =>
    rw [List.cons_append, List.takeWhile_cons_of_pos (hA a (by simp))]
    rw [ih (fun c hc => hA c (by simp [hc]))]
    simp

/-- dropWhile of a list none of whose elements satisfies the predicate. -/
theorem dropWhile_none {α : Type} (p : α → Bool) (l : List α)
    (h : ∀ c ∈ l, p c = false) : l.dropWhile p = l := by
  cases l with
  | nil => rfl
  | cons a l => exact List.dropWhile_cons_of_neg (by simp [h a (by simp)])

/-- A list of non-whitespace characters trims to itself. -/
theorem jsTrim_of_noWs (l : List Char) (h : ∀ c ∈ l, isJsSpace c = false) :
    jsTrim l = l := by
  unfold jsTrim
  rw [dropWhile_none _ l h]
  rw [dropWhile_none _ l.reverse (fun c hc => h c (List.mem_reverse.mp hc))]
  exact List.reverse_reverse l

/-- Value of a digit list extended by one digit character. -/
theorem digitsVal_concat (A : List Char) (c : Char) :
    digitsVal (A ++ [c]) = 10 * digitsVal A + (c.toNat - 48) := by
  simp [digitsVal, List.foldl_append]

/-- The big-endian character rendering of a little-endian digit list has the
value the list denotes. -/
theorem digitsVal_rev_map (L : List Nat) (h : ∀ d ∈ L, d < 10) :
    digitsVal ((L.map digitChar).reverse) = Nat.ofDigits 10 L := by
  induction L with
  | nil => simp [digitsVal, Nat.ofDigits_nil]
  | cons d L ih =>
    have hd := h d (by simp)
    have hrest : ∀ x ∈ L, x < 10 := fun x hx => h x (by simp [hx])
    rw [List.map_cons, List.reverse_cons, digitsVal_concat, ih hrest,
        (digitChar_facts d hd).1, Nat.ofDigits_cons]
    omega

/-- digitsVal inverts natChars. -/
theorem digitsVal_natChars (n : Nat) : digitsVal (natChars n) = n := by
  by_cases h : n = 0
  · subst h; decide
  · rw [natChars, if_neg h, List.map_reverse]
    rw [digitsVal_rev_map _ (fun d hd => Nat.digits_lt_base (by norm_num) hd)]
    exact Nat.ofDigits_digits 10 n

/-- natChars is never empty. -/
theorem natChars_ne_nil (n : Nat) : natChars n ≠ [] := by
  by_cases h : n = 0
  · subst h; decide
  · rw [natChars, if_neg h]
    simp [Nat.digits_ne_nil_iff_ne_zero.mpr h]

/-- Every character of natChars is a digit character. -/
theorem natChars_mem (n : Nat) (c : Char) (hc : c ∈ natChars n) :
    ∃ d, d < 10 ∧ c = digitChar d := by
  by_cases h : n = 0
  · subst h
    refine ⟨0, by norm_num, ?_⟩
    simp [natChars] at hc
    rw [hc]; decide
  · rw [natChars, if_neg h] at hc
    simp only [List.mem_map, List.mem_reverse] at hc
    obtain ⟨d, hd, rfl⟩ := hc
    exact ⟨d, Nat.digits_lt_base (by norm_num) hd, rfl⟩

/-- stripCurrencyGo run with exact fuel skips a prefix none of whose
characters can start one of the three alternatives. -/
theorem stripCurrencyGo_skip (A B : List Char)
    (hA : ∀ c ∈ A, ciEq c 'K' = false ∧ ciEq c 'C' = false ∧ c ≠ '&') :
    stripCurrencyGo (A ++ B).length (A ++ B) = A ++ stripCurrencyGo B.length B := by
  induction A with
  | nil => simp
  | cons c A ih =>
    obtain ⟨h1, h2, h3⟩ := hA c (by simp)
    have hrec := ih (fun x hx => hA x (by simp [hx]))
    have key : stripCurrencyGo ((A ++ B).length + 1) (c :: (A ++ B))
        = c :: stripCurrencyGo (A ++ B).length (A ++ B) := by
      rw [stripCurrencyGo.eq_def]
      simp [h1, h2, h3]
    calc stripCurrencyGo ((c :: A) ++ B).length ((c :: A) ++ B)
        = stripCurrencyGo ((A ++ B).length + 1) (c :: (A ++ B)) := by simp
      _ = c :: stripCurrencyGo (A ++ B).length (A ++ B) := key
      _ = c :: (A ++ stripCurrencyGo B.length B) := by rw [hrec]
      _ = (c :: A) ++ stripCurrencyGo B.length B := by simp

/-- stripCurrencyAux skips such a prefix. -/
theorem stripCurrencyAux_skip (A B : List Char)
    (hA : ∀ c ∈ A, ciEq c 'K' = false ∧ ciEq c 'C' = false ∧ c ≠ '&') :
    stripCurrencyAux (A ++ B) = A ++ stripCurrencyAux B :=
  stripCurrencyGo_skip A B hA

/-- Removing whitespace undoes the reversed-list grouping when the digits
contain no whitespace. -/
theorem removeWs_group3Rev (l : List Char) (h : ∀ c ∈ l, isJsSpace c = false) :
    removeWs (group3Rev l) = l := by
  induction l using group3Rev.induct with
  | case1 => rfl
  | case2 a => simp [group3Rev, removeWs, List.filter, h a (by simp)]
  | case3 a b =>
    simp [group3Rev, removeWs, List.filter, h a (by simp), h b (by simp)]
  | case4 a b c =>
    simp [group3Rev, removeWs, List.filter, h a (by simp), h b (by simp), h c (by simp)]
  | case5 a b c d rest ih =>
    have hrec := ih (fun x hx => h x (by simp [hx]))
    simp only [group3Rev, removeWs, List.filter] at hrec ⊢
    simp [h a (by simp), h b (by simp), h c (by simp), hrec,
      show isJsSpace nbsp = true from by decide]

/-- Filtering commutes with reversal. -/
theorem removeWs_reverse (l : List Char) :
    removeWs l.reverse = (removeWs l).reverse := by
  induction l with
  | nil => rfl
  | cons a l ih =>
    simp only [removeWs, List.filter] at ih ⊢
    rw [List.reverse_cons, List.filter_append, ih]
    cases ha : !(isJsSpace a) <;> simp [List.filter, ha]

/-- Removing whitespace undoes the thousands grouping. -/
theorem removeWs_group3 (ds : List Char) (h : ∀ c ∈ ds, isJsSpace c = false) :
    removeWs (group3 ds) = ds := by
  rw [group3, removeWs_reverse,
    removeWs_group3Rev ds.reverse (fun c hc => h c (List.mem_reverse.mp hc))]
  exact List.reverse_reverse ds

/-- A list ending in a character other than the two dashes is unchanged by
the trailing-dash strip. -/
theorem stripTrailingDash_concat (A : List Char) (c : Char) (h1 : c ≠ '-') (h2 : c ≠ '–') :
    stripTrailingDash (A ++ [c]) = A ++ [c] := by
  unfold stripTrailingDash
  rw [List.getLast?_concat]
  simp [h1, h2]

/-- A list without commas is unchanged by the comma replace. -/
theorem commaToDot_of_noComma (l : List Char) (h : ∀ c ∈ l, c ≠ ',') :
    commaToDot l = l := by
  induction l with
  | nil => rfl
  | cons a l ih =>
    rw [commaToDot, List.map_cons, if_neg (h a (by simp))]
    rw [show List.map (fun c => if c = ',' then '.' else c) l = commaToDot l from rfl]
    rw [ih (fun c hc => h c (by simp [hc]))]

/-- pfStart leaves a list with a non-whitespace head unchanged. -/
theorem pfStart_noWs (a : Char) (r : List Char) (h : isJsSpace a = false) :
    pfStart (a :: r) = a :: r :=
  List.dropWhile_cons_of_neg (by simp [h])

/-- pfSign finds no sign when the head is neither sign character. -/
theorem pfSign_noSign (a : Char) (r : List Char) (hm : a ≠ '-') (hp : a ≠ '+') :
    pfSign (a :: r) = (1, a :: r) := by
  unfold pfSign
  rw [if_neg (by simp [hm]), if_neg (by simp [hp])]

/-- pfIntPart consumes exactly an all-digit list. -/
theorem pfIntPart_digits (A : List Char) (hA : ∀ c ∈ A, isDigitCh c = true) :
    pfIntPart A = (A, []) := by
  unfold pfIntPart
  rw [takeWhile_all _ _ hA, List.drop_length]

/-- pfIntPart consumes exactly the digit prefix before a decimal point. -/
theorem pfIntPart_digits_dot (A F : List Char) (hA : ∀ c ∈ A, isDigitCh c = true) :
    pfIntPart (A ++ '.' :: F) = (A, '.' :: F) := by
  unfold pfIntPart
  rw [takeWhile_all_append _ _ _ hA, List.takeWhile_cons_of_neg (by decide),
    List.append_nil, List.drop_left]

/-- pfFracPart of an empty remainder finds nothing. -/
theorem pfFracPart_nil : pfFracPart [] = ([], []) := by decide

/-- pfFracPart consumes an all-digit fraction after the decimal point. -/
theorem pfFracPart_dot (F : List Char) (hF : ∀ c ∈ F, isDigitCh c = true) :
    pfFracPart ('.' :: F) = (F, []) := by
  unfold pfFracPart
  rw [if_pos (by simp), List.tail_cons, takeWhile_all _ _ hF, List.drop_length]

/-- parseFloat on a nonempty all-digit list yields its decimal value. -/
theorem parseFloatQ_int (A : List Char) (hne : A ≠ [])
    (hA : ∀ c ∈ A, isDigitCh c = true) :
    parseFloatQ A = some ((digitsVal A : ℚ)) := by
  obtain ⟨a, A', rfl⟩ := List.exists_cons_of_ne_nil hne
  obtain ⟨hws, hm, hp, hd, he, hE⟩ := digitCh_facts a (hA a (by simp))
  rw [parseFloatQ, pfStart_noWs a A' hws, pfSign_noSign a A' hm hp]
  simp only [pfIntPart_digits (a :: A') hA, pfFracPart_nil]
  rw [if_neg (by simp)]
  norm_num [digitsVal, pfExp]

/-- parseFloat on digits, a decimal point and further digits yields the
mixed decimal value. -/
theorem parseFloatQ_int_frac (A F : List Char) (hne : A ≠ [])
    (hA : ∀ c ∈ A, isDigitCh c = true) (hF : ∀ c ∈ F, isDigitCh c = true) :
    parseFloatQ (A ++ '.' :: F)
      = some ((digitsVal A : ℚ) + (digitsVal F : ℚ) / 10 ^ F.length) := by
  obtain ⟨a, A', rfl⟩ := List.exists_cons_of_ne_nil hne
  obtain ⟨hws, hm, hp, hd, he, hE⟩ := digitCh_facts a (hA a (by simp))
  rw [parseFloatQ, show (a :: A') ++ '.' :: F = a :: (A' ++ '.' :: F) from rfl,
    pfStart_noWs a _ hws, pfSign_noSign a _ hm hp]
  simp only [show a :: (A' ++ '.' :: F) = (a :: A') ++ '.' :: F from rfl,
    pfIntPart_digits_dot (a :: A') F hA, pfFracPart_dot F hF]
  rw [if_neg (by simp)]
  norm_num [pfExp]

/-- Membership in the reversed-grouping output. -/
theorem group3Rev_mem (l : List Char) (x : Char) (hx : x ∈ group3Rev l) :
    x = nbsp ∨ x ∈ l := by
  induction l using group3Rev.induct with
  | case1 => simp [group3Rev] at hx
  | case2 a => simp [group3Rev] at hx; simp [hx]
  | case3 a b => simp [group3Rev] at hx; rcases hx with h | h <;> simp [h]
  | case4 a b c => simp [group3Rev] at hx; rcases hx with h | h | h <;> simp [h]
  | case5 a b c d rest ih =>
    simp only [group3Rev, List.mem_cons] at hx
    rcases hx with h | h | h | h | h
    · simp [h]
    · simp [h]
    · simp [h]
    · exact Or.inl h
    · rcases ih h with h2 | h2
      · exact Or.inl h2
      · simp at h2
        rcases h2 with h3 | h3 <;> simp [h3]

/-- Membership in the grouped digits: either the separator or an original
digit. -/
theorem group3_mem (ds : List Char) (x : Char) (hx : x ∈ group3 ds) :
    x = nbsp ∨ x ∈ ds := by
  rw [group3] at hx
  rcases group3Rev_mem ds.reverse x (List.mem_reverse.mp hx) with h | h
  · exact Or.inl h
  · exact Or.inr (List.mem_reverse.mp h)

/-- A list without whitespace characters is unchanged by removeWs. -/
theorem removeWs_of_noWs (l : List Char) (h : ∀ c ∈ l, isJsSpace c = false) :
    removeWs l = l :=
  List.filter_eq_self.mpr (fun a ha => by simp [h a ha])

/-- The cleaning chain of parseCzechNumber on a grouped-digits-comma-fraction
display string followed by the currency suffix: the grouping, the suffix and
the comma all normalize away, under the hypotheses each stage needs. -/
theorem cleanPipeline_skeleton (D Fc Fd : List Char)
    (hGood : ∀ c ∈ group3 D ++ Fc, ciEq c 'K' = false ∧ ciEq c 'C' = false ∧ c ≠ '&')
    (hDnoWs : ∀ c ∈ D, isJsSpace c = false)
    (hFcNoWs : ∀ c ∈ Fc, isJsSpace c = false)
    (hComma : commaToDot (D ++ Fc) = D ++ Fd)
    (hDash : stripTrailingDash (D ++ Fd) = D ++ Fd)
    (hTrim : jsTrim (D ++ Fd) = D ++ Fd) :
    cleanPipeline ((group3 D ++ Fc) ++ [' ', 'K', 'č']) = D ++ Fd := by
  unfold cleanPipeline
  rw [stripCurrencyAux_skip (group3 D ++ Fc) [' ', 'K', 'č'] hGood,
      show stripCurrencyAux [' ', 'K', 'č'] = [' '] from by decide]
  have h2 : removeWs ((group3 D ++ Fc) ++ [' ']) = D ++ Fc := by
    unfold removeWs
    rw [List.filter_append, List.filter_append]
    rw [show List.filter (fun c => !(isJsSpace c)) [' '] = [] from by decide]
    rw [show List.filter (fun c => !(isJsSpace c)) (group3 D) = D from removeWs_group3 D hDnoWs]
    rw [show List.filter (fun c => !(isJsSpace c)) Fc = Fc from removeWs_of_noWs Fc hFcNoWs]
    simp
  rw [h2, hComma, hDash, hTrim]

/-- A nonempty list containing no dash characters is unchanged by the
trailing-dash strip. -/
theorem stripTrailingDash_of_noDash (l : List Char) (hne : l ≠ [])
    (h : ∀ c ∈ l, c ≠ '-' ∧ c ≠ '–') :
    stripTrailingDash l = l := by
  rcases List.eq_nil_or_concat l with rfl | ⟨L, b, rfl⟩
  · exact absurd rfl hne
  · rw [List.concat_eq_append]
    have hb := h b (by simp)
    exact stripTrailingDash_concat L b hb.1 hb.2

/-- The cleaning chain of parseCzechNumber on the cs-CZ rendering of an
integer digit list with an optional comma fraction: grouping, currency suffix
and comma normalize away, leaving the plain decimal literal. -/
theorem cleanPipeline_digits (D F : List Char)
    (hD : ∀ c ∈ D, ∃ d, d < 10 ∧ c = digitChar d) (hDne : D ≠ [])
    (hF : ∀ c ∈ F, ∃ d, d < 10 ∧ c = digitChar d) :
    cleanPipeline ((group3 D ++ (if F = [] then [] else ',' :: F)) ++ [' ', 'K', 'č'])
      = D ++ (if F = [] then [] else '.' :: F) := by
  have hDnoWs : ∀ c ∈ D, isJsSpace c = false := fun c hc => by
    obtain ⟨d, hd, rfl⟩ := hD c hc
    exact (digitChar_facts d hd).2.2.1
  have hFnoWs : ∀ c ∈ F, isJsSpace c = false := fun c hc => by
    obtain ⟨d, hd, rfl⟩ := hF c hc
    exact (digitChar_facts d hd).2.2.1
  have hDgood : ∀ c ∈ D, ciEq c 'K' = false ∧ ciEq c 'C' = false ∧ c ≠ '&' := fun c hc => by
    obtain ⟨d, hd, rfl⟩ := hD c hc
    obtain ⟨-, -, -, hK, hC, hAmp, -, -, -, -, -, -, -⟩ := digitChar_facts d hd
    exact ⟨hK, hC, hAmp⟩
  have hFgood : ∀ c ∈ F, ciEq c 'K' = false ∧ ciEq c 'C' = false ∧ c ≠ '&' := fun c hc => by
    obtain ⟨d, hd, rfl⟩ := hF c hc
    obtain ⟨-, -, -, hK, hC, hAmp, -, -, -, -, -, -, -⟩ := digitChar_facts d hd
    exact ⟨hK, hC, hAmp⟩
  have hDnoComma : ∀ c ∈ D, c ≠ ',' := fun c hc => by
    obtain ⟨d, hd, rfl⟩ := hD c hc
    exact (digitChar_facts d hd).2.2.2.2.2.2.1
  have hFnoComma : ∀ c ∈ F, c ≠ ',' := fun c hc => by
    obtain ⟨d, hd, rfl⟩ := hF c hc
    exact (digitChar_facts d hd).2.2.2.2.2.2.1
  have hDnoDash : ∀ c ∈ D, c ≠ '-' ∧ c ≠ '–' := fun c hc => by
    obtain ⟨d, hd, rfl⟩ := hD c hc
    obtain ⟨-, -, -, -, -, -, -, h8, h9, -, -, -, -⟩ := digitChar_facts d hd
    exact ⟨h8, h9⟩
  have hFnoDash : ∀ c ∈ F, c ≠ '-' ∧ c ≠ '–' := fun c hc => by
    obtain ⟨d, hd, rfl⟩ := hF c hc
    obtain ⟨-, -, -, -, -, -, -, h8, h9, -, -, -, -⟩ := digitChar_facts d hd
    exact ⟨h8, h9⟩
  by_cases hFe : F = []
  · subst hFe
    rw [if_pos rfl, if_pos rfl]
    refine cleanPipeline_skeleton D [] [] ?_ hDnoWs (by simp) ?_ ?_ ?_
    · intro c hc
      simp only [List.append_nil] at hc
      rcases group3_mem D c hc with rfl | h
      · exact ⟨by decide, by decide, by decide⟩
      · exact hDgood c h
    · simpa using commaToDot_of_noComma D hDnoComma
    · simpa using stripTrailingDash_of_noDash D hDne hDnoDash
    · simpa using jsTrim_of_noWs D hDnoWs
  · rw [if_neg hFe, if_neg hFe]
    refine cleanPipeline_skeleton D (',' :: F) ('.' :: F) ?_ hDnoWs ?_ ?_ ?_ ?_
    · intro c hc
      rcases List.mem_append.mp hc with h | h
      · rcases group3_mem D c h with rfl | h2
        · exact ⟨by decide, by decide, by decide⟩
        · exact hDgood c h2
      · rcases List.mem_cons.mp h with rfl | h2
        · exact ⟨by decide, by decide, by decide⟩
        · exact hFgood c h2
    · intro c hc
      rcases List.mem_cons.mp hc with rfl | h2
      · decide
      · exact hFnoWs c h2
    · unfold commaToDot
      rw [List.map_append]
      rw [show List.map (fun c => if c = ',' then '.' else c) D = D from
        commaToDot_of_noComma D hDnoComma]
      rw [List.map_cons, if_pos rfl]
      rw [show List.map (fun c => if c = ',' then '.' else c) F = F from
        commaToDot_of_noComma F hFnoComma]
    · refine stripTrailingDash_of_noDash _ (by simp) ?_
      intro c hc
      rcases List.mem_append.mp hc with h | h
      · exact hDnoDash c h
      · rcases List.mem_cons.mp h with rfl | h2
        · exact ⟨by decide, by decide⟩
        · exact hFnoDash c h2
    · refine jsTrim_of_noWs _ ?_
      intro c hc
      rcases List.mem_append.mp hc with h | h
      · exact hDnoWs c h
      · rcases List.mem_cons.mp h with rfl | h2
        · decide
        · exact hFnoWs c h2


/-- toList inverts the String constructor. -/
theorem toList_mk (l : List Char) : (String.mk l).toList = l := rfl

/-- An append with a nonempty left part is nonempty. -/
theorem isEmpty_append_left (A B : List Char) (h : A ≠ []) :
    (A ++ B).isEmpty = false := by
  cases A with
  | nil => exact absurd rfl h
  | cons a as => rfl

/-- An append ending in a three-character suffix is nonempty. -/
theorem isEmpty_append_suffix (A : List Char) (x y z : Char) :
    (A ++ [x, y, z]).isEmpty = false := by
  cases A <;> rfl

/-- Value of a single digit character. -/
theorem digitsVal_one (c : Char) : digitsVal [c] = c.toNat - 48 := by
  simp [digitsVal]

/-- Value of two digit characters. -/
theorem digitsVal_two (c d : Char) :
    digitsVal [c, d] = 10 * (c.toNat - 48) + (d.toNat - 48) := by
  simp [digitsVal]

/-- natChars characters satisfy the digit-character shape needed by
cleanPipeline_digits. -/
theorem natChars_shape (n : Nat) : ∀ c ∈ natChars n, ∃ d, d < 10 ∧ c = digitChar d :=
  fun c hc => natChars_mem n c hc

/-- Evaluation scheme for parseCzechNumber: once the stages are known, the
result is the parsed positive value. -/
theorem parseCzechNumber_of_clean (s : String) (C : List Char) (q : ℚ)
    (h1 : s.toList.isEmpty = false)
    (h2 : cleanPipeline s.toList = C)
    (h3 : C.isEmpty = false)
    (h4 : parseFloatQ C = some q)
    (h5 : 0 < q) :
    parseCzechNumber s = some q := by
  rw [parseCzechNumber, h1]
  simp only [Bool.false_eq_true, if_false]
  rw [h2, h3]
  simp only [Bool.false_eq_true, if_false]
  rw [h4]
  show (if 0 < q then some q else none) = some q
  rw [if_pos h5]

/-- Claim C10: for every strictly positive rational with at most two decimal
digits (100 p integral), the Czech display string produced by
formatCzechPrice round-trips through parseCzechNumber back to exactly p. -/
theorem c10_round_trip (p : ℚ) (hp : 0 < p) (hden : (p * 100).den = 1) :
    parseCzechNumber (formatCzechPrice p) = some p := by
  have hk : (((p * 100).num : ℤ) : ℚ) = p * 100 := by
    conv_rhs => rw [← Rat.num_div_den (p * 100)]
    rw [hden]
    simp
  have hknum_pos : 0 < (p * 100).num := Rat.num_pos.mpr (by positivity)
  set kN : Nat := (p * 100).num.toNat with hkN
  have h1 : ((kN : ℕ) : ℤ) = (p * 100).num := Int.toNat_of_nonneg hknum_pos.le
  have hcast : ((kN : ℕ) : ℚ) = p * 100 := by
    calc ((kN : ℕ) : ℚ) = (((kN : ℕ) : ℤ) : ℚ) := by push_cast; ring
    _ = (((p * 100).num : ℤ) : ℚ) := by rw [h1]
    _ = p * 100 := hk
  have hnneg : ¬ p < 0 := not_lt.mpr hp.le
  have hfloor : (Int.floor (|p| * 100 + 1 / 2)).toNat = kN := by
    rw [abs_of_pos hp]
    have h2 : p * 100 + 1 / 2 = ((kN : ℕ) : ℚ) + 1 / 2 := by rw [hcast]
    rw [h2]
    have h3 : Int.floor (((kN : ℕ) : ℚ) + 1 / 2) = ((kN : ℕ) : ℤ) := by
      rw [Int.floor_eq_iff]
      constructor
      · push_cast
        linarith
      · push_cast
        linarith
    rw [h3]
    simp
  have hsplit : 100 * (kN / 100) + kN % 100 = kN := Nat.div_add_mod kN 100
  have hfb : kN % 100 < 100 := Nat.mod_lt _ (by norm_num)
  have hpn : p = ((kN / 100 : ℕ) : ℚ) + ((kN % 100 : ℕ) : ℚ) / 100 := by
    have h4 : ((100 * (kN / 100) + kN % 100 : ℕ) : ℚ) = ((kN : ℕ) : ℚ) := by
      rw [hsplit]
    push_cast at h4
    rw [hcast] at h4
    field_simp
    linarith
  have hDigAll : ∀ c ∈ natChars (kN / 100), isDigitCh c = true := fun c hc => by
    obtain ⟨d, hd, rfl⟩ := natChars_mem _ c hc
    exact (digitChar_facts d hd).2.1
  by_cases hf0 : kN % 100 = 0
  · -- no fraction digits
    have hlist : (formatCzechPrice p).toList
        = ((group3 (natChars (kN / 100)) ++ ([] : List Char)) ++ [' ', 'K', 'č']) := by
      simp only [formatCzechPrice, toList_mk, hfloor]
      rw [if_neg hnneg, if_pos hf0, List.nil_append]
    have hclean : cleanPipeline ((group3 (natChars (kN / 100)) ++ ([] : List Char))
        ++ [' ', 'K', 'č']) = natChars (kN / 100) ++ ([] : List Char) := by
      have h := cleanPipeline_digits (natChars (kN / 100)) []
        (natChars_shape _) (natChars_ne_nil _) (by simp)
      rw [if_pos rfl, if_pos rfl] at h
      exact h
    have hpf : parseFloatQ (natChars (kN / 100) ++ ([] : List Char))
        = some ((digitsVal (natChars (kN / 100)) : ℕ) : ℚ) := by
      rw [List.append_nil]
      exact parseFloatQ_int _ (natChars_ne_nil _) hDigAll
    have hval : ((digitsVal (natChars (kN / 100)) : ℕ) : ℚ) = p := by
      rw [digitsVal_natChars, hpn, hf0]
      simp
    have hres := parseCzechNumber_of_clean (formatCzechPrice p)
      (natChars (kN / 100) ++ ([] : List Char))
      ((digitsVal (natChars (kN / 100)) : ℕ) : ℚ)
      (by rw [hlist]; exact isEmpty_append_suffix _ _ _ _)
      (by rw [hlist]; exact hclean)
      (isEmpty_append_left _ _ (natChars_ne_nil _))
      hpf
      (by rw [hval]; exact hp)
    rw [hres, hval]
  · by_cases hf10 : kN % 100 % 10 = 0
    · -- one fraction digit
      have hd1 : kN % 100 / 10 < 10 := by omega
      have hFdig : ∀ c ∈ [digitChar (kN % 100 / 10)], isDigitCh c = true := by
        intro c hc
        simp at hc
        rw [hc]
        exact (digitChar_facts _ hd1).2.1
      have hlist : (formatCzechPrice p).toList
          = ((group3 (natChars (kN / 100)) ++ [',', digitChar (kN % 100 / 10)])
            ++ [' ', 'K', 'č']) := by
        simp only [formatCzechPrice, toList_mk, hfloor]
        rw [if_neg hnneg, if_neg hf0, if_pos hf10, List.nil_append]
      have hclean : cleanPipeline ((group3 (natChars (kN / 100))
            ++ [',', digitChar (kN % 100 / 10)]) ++ [' ', 'K', 'č'])
          = natChars (kN / 100) ++ ['.', digitChar (kN % 100 / 10)] := by
        have h := cleanPipeline_digits (natChars (kN / 100)) [digitChar (kN % 100 / 10)]
          (natChars_shape _) (natChars_ne_nil _)
          (by intro c hc
              simp at hc
              exact ⟨kN % 100 / 10, hd1, hc⟩)
        rw [if_neg (by simp), if_neg (by simp)] at h
        exact h
      have hpf : parseFloatQ (natChars (kN / 100) ++ ['.', digitChar (kN % 100 / 10)])
          = some (((digitsVal (natChars (kN / 100)) : ℕ) : ℚ)
            + ((digitsVal [digitChar (kN % 100 / 10)] : ℕ) : ℚ)
              / 10 ^ ([digitChar (kN % 100 / 10)].length)) := by
        rw [show (['.', digitChar (kN % 100 / 10)] : List Char)
            = '.' :: [digitChar (kN % 100 / 10)] from rfl]
        rw [parseFloatQ_int_frac _ _ (natChars_ne_nil _) hDigAll hFdig]
      have hval : ((digitsVal (natChars (kN / 100)) : ℕ) : ℚ)
          + ((digitsVal [digitChar (kN % 100 / 10)] : ℕ) : ℚ)
            / 10 ^ ([digitChar (kN % 100 / 10)].length) = p := by
        have e1 : digitsVal [digitChar (kN % 100 / 10)] = kN % 100 / 10 := by
          rw [digitsVal_one, (digitChar_facts _ hd1).1]
          omega
        have h7 : 10 * (kN % 100 / 10) = kN % 100 := by omega
        have h8 : ((kN % 100 : ℕ) : ℚ) = 10 * ((kN % 100 / 10 : ℕ) : ℚ) := by
          have h9 : ((10 * (kN % 100 / 10) : ℕ) : ℚ) = ((kN % 100 : ℕ) : ℚ) := by
            rw [h7]
          push_cast at h9
          linarith
        rw [e1, digitsVal_natChars, hpn, h8]
        simp
        ring
      have hres := parseCzechNumber_of_clean (formatCzechPrice p)
        (natChars (kN / 100) ++ ['.', digitChar (kN % 100 / 10)]) _
        (by rw [hlist]; exact isEmpty_append_suffix _ _ _ _)
        (by rw [hlist]; exact hclean)
        (isEmpty_append_left _ _ (natChars_ne_nil _))
        (by rw [hpf])
        (by rw [hval]; exact hp)
      rw [hres, hval]
    · -- two fraction digits
      have hd1 : kN % 100 / 10 < 10 := by omega
      have hd2 : kN % 100 % 10 < 10 := by omega
      have hFdig : ∀ c ∈ [digitChar (kN % 100 / 10), digitChar (kN % 100 % 10)],
          isDigitCh c = true := by
        intro c hc
        simp at hc
        rcases hc with hc | hc <;> rw [hc]
        · exact (digitChar_facts _ hd1).2.1
        · exact (digitChar_facts _ hd2).2.1
      have hlist : (formatCzechPrice p).toList
          = ((group3 (natChars (kN / 100))
              ++ [',', digitChar (kN % 100 / 10), digitChar (kN % 100 % 10)])
            ++ [' ', 'K', 'č']) := by
        simp only [formatCzechPrice, toList_mk, hfloor]
        rw [if_neg hnneg, if_neg hf0, if_neg hf10, List.nil_append]
      have hclean : cleanPipeline ((group3 (natChars (kN / 100))
            ++ [',', digitChar (kN % 100 / 10), digitChar (kN % 100 % 10)])
            ++ [' ', 'K', 'č'])
          = natChars (kN / 100)
            ++ ['.', digitChar (kN % 100 / 10), digitChar (kN % 100 % 10)] := by
        have h := cleanPipeline_digits (natChars (kN / 100))
          [digitChar (kN % 100 / 10), digitChar (kN % 100 % 10)]
          (natChars_shape _) (natChars_ne_nil _)
          (by intro c hc
              simp at hc
              rcases hc with hc | hc
              · exact ⟨kN % 100 / 10, hd1, hc⟩
              · exact ⟨kN % 100 % 10, hd2, hc⟩)
        rw [if_neg (by simp), if_neg (by simp)] at h
        exact h
      have hpf : parseFloatQ (natChars (kN / 100)
            ++ ['.', digitChar (kN % 100 / 10), digitChar (kN % 100 % 10)])
          = some (((digitsVal (natChars (kN / 100)) : ℕ) : ℚ)
            + ((digitsVal [digitChar (kN % 100 / 10), digitChar (kN % 100 % 10)] : ℕ) : ℚ)
              / 10 ^ ([digitChar (kN % 100 / 10), digitChar (kN % 100 % 10)].length)) := by
        rw [show (['.', digitChar (kN % 100 / 10), digitChar (kN % 100 % 10)] : List Char)
            = '.' :: [digitChar (kN % 100 / 10), digitChar (kN % 100 % 10)] from rfl]
        rw [parseFloatQ_int_frac _ _ (natChars_ne_nil _) hDigAll hFdig]
      have hval : ((digitsVal (natChars (kN / 100)) : ℕ) : ℚ)
          + ((digitsVal [digitChar (kN % 100 / 10), digitChar (kN % 100 % 10)] : ℕ) : ℚ)
            / 10 ^ ([digitChar (kN % 100 / 10), digitChar (kN % 100 % 10)].length) = p := by
        have e1 : digitsVal [digitChar (kN % 100 / 10), digitChar (kN % 100 % 10)]
            = kN % 100 := by
          rw [digitsVal_two, (digitChar_facts _ hd1).1, (digitChar_facts _ hd2).1]
          omega
        rw [e1, digitsVal_natChars, hpn]
        simp
        ring
      have hres := parseCzechNumber_of_clean (formatCzechPrice p)
        (natChars (kN / 100)
          ++ ['.', digitChar (kN % 100 / 10), digitChar (kN % 100 % 10)]) _
        (by rw [hlist]; exact isEmpty_append_suffix _ _ _ _)
        (by rw [hlist]; exact hclean)
        (isEmpty_append_left _ _ (natChars_ne_nil _))
        (by rw [hpf])
        (by rw [hval]; exact hp)
      rw [hres, hval]

/-- Witness for c10_round_trip at p = 1234.5. -/
theorem c10_round_trip_witness :
    0 < (1234.5 : ℚ) ∧ ((1234.5 : ℚ) * 100).den = 1
    ∧ parseCzechNumber (formatCzechPrice (1234.5 : ℚ)) = some (1234.5 : ℚ) :=
  ⟨by norm_num, by norm_num, c10_round_trip (1234.5 : ℚ) (by norm_num) (by norm_num)⟩

/-! ### Claim C7 -/

/-- Claim C7: the numeric normalization maps "1 234,50 Kč" to 1234.5 and
"29 990 Kč" to 29990; the em dash and the empty string give no result; and in
general the result is exactly the cleaned string's parsed value filtered to
strictly positive values, so every non-numeric or non-positive candidate
yields none and the extraction strategy falls through. -/
theorem c7_parse_czech_number :
    parseCzechNumber "1 234,50 Kč" = some (1234.5 : ℚ)
    ∧ parseCzechNumber "29 990 Kč" = some (29990 : ℚ)
    ∧ parseCzechNumber "—" = none
    ∧ parseCzechNumber "" = none
    ∧ ∀ text : String,
        parseCzechNumber text
          = (parseFloatQ (cleanPipeline text.toList)).bind
              (fun q => if 0 < q then some q else none) := by
  refine ⟨?_, ?_, by decide, by decide, ?_⟩
  · have e := parseFloatQ_int_frac ['1', '2', '3', '4'] ['5', '0']
      (by decide) (by decide) (by decide)
    have h4 : parseFloatQ "1234.50".toList = some (1234.5 : ℚ) := by
      rw [show "1234.50".toList = ['1', '2', '3', '4'] ++ '.' :: ['5', '0'] from rfl, e]
      norm_num [show digitsVal ['1', '2', '3', '4'] = 1234 from by decide,
        show digitsVal ['5', '0'] = 50 from by decide]
    exact parseCzechNumber_of_clean "1 234,50 Kč" ("1234.50".toList) (1234.5 : ℚ)
      (by decide) (by decide) (by decide) h4 (by norm_num)
  · have e := parseFloatQ_int ['2', '9', '9', '9', '0'] (by decide) (by decide)
    have h4 : parseFloatQ "29990".toList = some (29990 : ℚ) := by
      rw [show "29990".toList = ['2', '9', '9', '9', '0'] from rfl, e]
      norm_num [show digitsVal ['2', '9', '9', '9', '0'] = 29990 from by decide]
    exact parseCzechNumber_of_clean "29 990 Kč" ("29990".toList) (29990 : ℚ)
      (by decide) (by decide) (by decide) h4 (by norm_num)
  · intro text
    rw [parseCzechNumber]
    by_cases h0 : text.toList.isEmpty
    · rw [if_pos h0]
      have he : text.toList = [] := by simpa using h0
      rw [he]
      rfl
    · rw [if_neg h0]
      by_cases h1 : (cleanPipeline text.toList).isEmpty
      · rw [if_pos h1]
        have he : cleanPipeline text.toList = [] := by simpa using h1
        rw [he]
        rfl
      · rw [if_neg h1]
        cases hq : parseFloatQ (cleanPipeline text.toList) with
        | none => simp
        | some q => simp

/-! ### Claim C8 -/

/-- Claim C8 counterexample: when the product name comes from the first
heading element, the source returns it merely trimmed — the site-name suffix
is not stripped, although the claim requires the cleaning for every source;
the clean helper itself would have stripped it. -/
theorem c8_counterexample :
    parseProductName { ogTitle := none, title := none, h1 := some "Foo | Alza.cz" }
      = "Foo | Alza.cz"
    ∧ String.mk (cleanName ("Foo | Alza.cz".toList)) = "Foo"
    ∧ ("Foo | Alza.cz" : String) ≠ "Foo" := by
  exact ⟨by decide, by decide, by decide⟩

/-- Claim C8 (amended): parseProductName prefers the og:title meta content,
else the page title, else the first heading, else the placeholder
"Unknown Product"; the cleaning — trailing site-name suffix, then the
za-price fragment, then the trailing dash-delimited suffix, then trim — is
applied only to the og:title and title sources, while the heading source is
returned merely trimmed; the title "iPhone 16 Pro 256GB | Alza.cz" yields
"iPhone 16 Pro 256GB". -/
theorem c8_amended :
    (∀ (d : Doc) (c : String), d.ogTitle = some c → jsTrim c.toList ≠ [] →
      parseProductName d = String.mk (cleanName (jsTrim c.toList)))
    ∧ (∀ (d : Doc) (t : String), d.ogTitle = none → d.title = some t →
      jsTrim t.toList ≠ [] →
      parseProductName d = String.mk (cleanName (jsTrim t.toList)))
    ∧ (∀ (d : Doc) (h : String), d.ogTitle = none → d.title = none → d.h1 = some h →
      parseProductName d = String.mk (jsTrim h.toList))
    ∧ (∀ d : Doc, d.ogTitle = none → d.title = none → d.h1 = none →
      parseProductName d = "Unknown Product")
    ∧ (∀ l : List Char, cleanName l
        = jsTrim (stripDashSuffix (stripZaPrice (stripAlzaSuffix l))))
    ∧ parseProductName
        { ogTitle := none, title := some "iPhone 16 Pro 256GB | Alza.cz", h1 := none }
      = "iPhone 16 Pro 256GB" := by
  refine ⟨?_, ?_, ?_, ?_, fun l => rfl, by decide⟩
  · intro d c h1 h2
    have he : (jsTrim c.toList).isEmpty = false := by
      cases hl : jsTrim c.toList with
      | nil => exact absurd hl h2
      | cons a as => rfl
    simp [parseProductName, h1, he]
    exact fun h => absurd h h2
  · intro d t h1 h2 h3
    have he : (jsTrim t.toList).isEmpty = false := by
      cases hl : jsTrim t.toList with
      | nil => exact absurd hl h3
      | cons a as => rfl
    simp [parseProductName, parseProductNameTitle, h1, h2, he]
    exact fun h => absurd h h3
  · intro d h h1 h2 h3
    simp [parseProductName, parseProductNameTitle, parseProductNameH1, h1, h2, h3]
  · intro d h1 h2 h3
    simp [parseProductName, parseProductNameTitle, parseProductNameH1, h1, h2, h3]

/-- Witness for c8_amended: the og:title source is cleaned, stripping the
site-name suffix of the example title. -/
theorem c8_amended_witness :
    parseProductName
        { ogTitle := some "iPhone 16 Pro 256GB | Alza.cz", title := none, h1 := none }
      = String.mk (cleanName (jsTrim "iPhone 16 Pro 256GB | Alza.cz".toList))
    ∧ String.mk (cleanName (jsTrim "iPhone 16 Pro 256GB | Alza.cz".toList))
      = "iPhone 16 Pro 256GB" :=
  ⟨c8_amended.1
      { ogTitle := some "iPhone 16 Pro 256GB | Alza.cz", title := none, h1 := none }
      "iPhone 16 Pro 256GB | Alza.cz" rfl (by decide),
   by decide⟩
